import Mathlib

/-!
Shallow embedding of the mock-API userscript's interception engine
(`matchRule`, `addRequestLog`, `interceptFetch`, `interceptXHR`) and proofs
of the specification's claims about it.

Host-environment primitives that the script merely calls (the JavaScript
regular-expression engine, `JSON.parse` / `JSON.stringify`, `Date.now`,
`Math.random`) are modelled as explicit parameters: the engine's control
flow around them is translated line by line from the source.
-/

namespace MockApi

/-- JS `String.prototype.toUpperCase`, character-wise (ASCII letters are
mapped to upper case; method strings are ASCII). -/
def jsToUpper (s : String) : String :=
  String.mk (s.data.map Char.toUpper)

/-- JS `String.prototype.toLowerCase`, character-wise. -/
def jsToLower (s : String) : String :=
  String.mk (s.data.map Char.toLower)

/-- Scan helper for `strIncludes`: does `pat` occur contiguously in the
character list? -/
def strIncludesAux (pat : List Char) : List Char → Bool
  | [] => pat.isEmpty
  | c :: cs => pat.isPrefixOf (c :: cs) || strIncludesAux pat cs

/-- JS `String.prototype.includes`: substring containment test. -/
def strIncludes (s pat : String) : Bool :=
  strIncludesAux pat.data s.data

/-- The host regular-expression engine, abstracted: `compiles p` models
whether `new RegExp(p)` succeeds without throwing, and `test p u` models
`new RegExp(p).test(u)`. -/
structure RegexEngine where
  compiles : String → Bool
  test : String → String → Bool

/-- The host JSON facility, abstracted: `parse s = some v` models
`JSON.parse(s)` returning value `v`, `parse s = none` models
`JSON.parse(s)` throwing; `stringify` models `JSON.stringify`. -/
structure JsonOps where
  Val : Type
  parse : String → Option Val
  stringify : Val → String

/-- `responseType` field of a mock rule: `'json' | 'text'`. -/
inductive RespType where
  | json
  | text
deriving DecidableEq, Repr

/-- `interface MockRule` from the source. -/
structure MockRule where
  id : String
  enabled : Bool
  name : String
  urlPattern : String
  method : String
  responseType : RespType
  responseData : String
  statusCode : Int
  delay : Int
deriving DecidableEq, Repr

/-- `interface RequestLog` from the source. -/
structure RequestLog where
  id : String
  timestamp : Nat
  url : String
  method : String
  matched : Bool
  ruleId : Option String
deriving DecidableEq, Repr

/-- `interface ScriptConfig` from the source. -/
structure ScriptConfig where
  enabled : Bool
  rules : List MockRule
  showNotification : Bool
  logRequests : Bool

/-- Ambient values the host supplies when a log entry is built:
`Date.now().toString(36) + Math.random().toString(36).substr(2)` and
`Date.now()`. -/
structure Ambient where
  freshId : String
  nowMs : Nat

/-- The skip condition of source line 112:
`rule.method !== 'ALL' && rule.method !== method.toUpperCase()`. -/
def methodSkip (rule : MockRule) (method : String) : Bool :=
  rule.method ≠ "ALL" && rule.method ≠ jsToUpper method

/-- The per-rule loop body of `matchRule` (source lines 108-136):
skip disabled rules; skip rules whose `method` is neither `'ALL'` nor
equal to `method.toUpperCase()`; then test the URL, as a regular
expression when the pattern compiles and by `url.includes(pattern)`
otherwise. -/
def matchRuleList (R : RegexEngine) (url method : String) :
    List MockRule → Option MockRule
  | [] => none
  | rule :: rest =>
    if !rule.enabled then matchRuleList R url method rest
    else if methodSkip rule method then
      matchRuleList R url method rest
    else
      let matched :=
        if R.compiles rule.urlPattern then R.test rule.urlPattern url
        else strIncludes url rule.urlPattern
      if matched then some rule else matchRuleList R url method rest

/-- `matchRule(url, method)` (source lines 105-139): `null` when
`config.enabled` is false, otherwise the first-match scan of the rules. -/
def matchRule (R : RegexEngine) (config : ScriptConfig)
    (url method : String) : Option MockRule :=
  if !config.enabled then none
  else matchRuleList R url method config.rules

/-- `addRequestLog(url, method, matched, ruleId?)` (source lines 142-160):
no-op when `config.logRequests` is false; otherwise builds the entry from
ambient id/timestamp, `unshift`s it, and truncates to the first 100. -/
def addRequestLog (config : ScriptConfig) (amb : Ambient)
    (url method : String) (matched : Bool) (ruleId : Option String)
    (requestLogs : List RequestLog) : List RequestLog :=
  if !config.logRequests then requestLogs
  else
    let log : RequestLog :=
      { id := amb.freshId, timestamp := amb.nowMs, url := url,
        method := method, matched := matched, ruleId := ruleId }
    let logs := log :: requestLogs
    if logs.length > 100 then logs.take 100 else logs

/-- `Content-Type` value derived from a rule's `responseType`, the ternary
`responseType === 'json' ? 'application/json' : 'text/plain'` that the
source repeats at lines 195-197, 293 and 297. -/
def contentTypeFor : RespType → String
  | .json => "application/json"
  | .text => "text/plain"

/-- The `input : RequestInfo | URL` argument of the fetch wrapper. -/
inductive FetchInput where
  | str (s : String)
  | url (href : String)
  | request (url : String)

/-- Line 167: `typeof input === 'string' ? input : input instanceof URL ?
input.href : input.url`. -/
def fetchUrl : FetchInput → String
  | .str s => s
  | .url href => href
  | .request u => u

/-- The `init?: RequestInit` argument; only `method` is consulted. -/
structure FetchInit where
  method : Option String

/-- Line 168: `init?.method || 'GET'` — JS `||` also replaces an empty
string (falsy) by `'GET'`. -/
def fetchMethod (init : Option FetchInit) : String :=
  match init with
  | none => "GET"
  | some i =>
    match i.method with
    | none => "GET"
    | some m => if m = "" then "GET" else m

/-- A JavaScript exception escaping the wrapper (rejecting its promise). -/
inductive JsError where
  | jsonParse (raw : String)
deriving DecidableEq, Repr

/-- The `Response` object built by the fetch wrapper. -/
structure MockResponse where
  body : String
  status : Int
  statusText : String
  headers : List (String × String)
deriving DecidableEq, Repr

/-- Lines 184-200 of the matched fetch path: `responseType === 'json' ?
JSON.parse(responseData) : responseData` — with **no** `try`/`catch`, so a
parse failure is a thrown exception — then `new Response(json ?
JSON.stringify(parsed) : raw, \x7bstatus, statusText: 'OK', headers:
\x7bContent-Type\x7d\x7d)`. The two ternaries on the same `responseType`
are merged into one match. -/
def fetchMockedResponse (J : JsonOps) (rule : MockRule) :
    Except JsError MockResponse :=
  match rule.responseType with
  | .json =>
    match J.parse rule.responseData with
    | none => .error (.jsonParse rule.responseData)
    | some v =>
      .ok { body := J.stringify v, status := rule.statusCode,
            statusText := "OK",
            headers := [("Content-Type", contentTypeFor .json)] }
  | .text =>
    .ok { body := rule.responseData, status := rule.statusCode,
          statusText := "OK",
          headers := [("Content-Type", contentTypeFor .text)] }

/-- What the wrapped `window.fetch` ultimately does with the call. -/
inductive FetchOutcome (ρ : Type) where
  | mocked (result : Except JsError MockResponse)
  | passthrough (result : ρ)

/-- Observable effects of one call to the wrapped `window.fetch`. -/
structure FetchCall (ρ : Type) where
  requestLogs : List RequestLog
  delays : List Int
  outcome : FetchOutcome ρ

/-- The wrapper installed by `interceptFetch` (lines 166-205), with the
original `window.fetch` as an explicit parameter. On a match it logs,
optionally awaits `rule.delay`, and synthesizes; otherwise it logs and
returns `originalFetch.apply(this, [input, init])` unchanged. -/
def fetchWrapper (J : JsonOps) (R : RegexEngine) (config : ScriptConfig)
    (amb : Ambient) {ρ : Type}
    (originalFetch : FetchInput → Option FetchInit → ρ)
    (input : FetchInput) (init : Option FetchInit)
    (requestLogs : List RequestLog) : FetchCall ρ :=
  let url := fetchUrl input
  let method := fetchMethod init
  match matchRule R config url method with
  | some rule =>
    { requestLogs :=
        addRequestLog config amb url method true (some rule.id) requestLogs,
      delays := if rule.delay > 0 then [rule.delay] else [],
      outcome := .mocked (fetchMockedResponse J rule) }
  | none =>
    { requestLogs :=
        addRequestLog config amb url method false none requestLogs,
      delays := [],
      outcome := .passthrough (originalFetch input init) }

/-- Value installed in the XHR `response` property: the parsed JSON value,
or the raw `responseData` string. -/
inductive XHRRespVal (V : Type) where
  | parsed (v : V)
  | raw (s : String)
deriving DecidableEq

/-- One primitive step of the scheduled XHR continuation: a property
installation, an event dispatch, or a `console.error` report. -/
inductive XHRAction (V : Type) where
  | setReadyState (n : Nat)
  | fire (ev : String)
  | setStatus (code : Int)
  | setStatusText (s : String)
  | setResponseText (s : String)
  | setResponse (r : XHRRespVal V)
  | setResponseType (s : String)
  | installHeaderAccessors (contentType : String)
  | logError (msg : String)
deriving DecidableEq

/-- The body of the `setTimeout` callback on the matched XHR path
(lines 246-305), as the ordered list of its primitive steps: readyState
1, 2, 3 each followed by a `readystatechange` dispatch; readyState 4,
status, statusText, responseText installed; the `response` property set
from `JSON.parse` inside `try`/`catch` (on failure: `console.error` then
the raw string) for json rules and to the raw string for text rules; the
header accessors installed; then the final `readystatechange`, `load`,
`loadend` dispatches. -/
def xhrContinuation (J : JsonOps) (rule : MockRule) :
    List (XHRAction J.Val) :=
  [XHRAction.setReadyState 1, .fire "readystatechange",
   .setReadyState 2, .fire "readystatechange",
   .setReadyState 3, .fire "readystatechange",
   .setReadyState 4,
   .setStatus rule.statusCode,
   .setStatusText "OK",
   .setResponseText rule.responseData]
  ++ (match rule.responseType with
      | RespType.json =>
        match J.parse rule.responseData with
        | some v =>
          [XHRAction.setResponse (.parsed v), .setResponseType "json"]
        | none =>
          [XHRAction.logError "Mock JSON parse failed",
           .setResponse (.raw rule.responseData)]
      | RespType.text => [XHRAction.setResponse (.raw rule.responseData)])
  ++ [XHRAction.installHeaderAccessors (contentTypeFor rule.responseType),
      .fire "readystatechange", .fire "load", .fire "loadend"]

/-- The `getResponseHeader` override installed on the matched XHR path
(lines 295-300): answers only `Content-Type` (case-insensitively on the
queried name), `null` for everything else. -/
def xhrGetResponseHeader (rule : MockRule) (name : String) :
    Option String :=
  if jsToLower name = "content-type" then
    some (contentTypeFor rule.responseType)
  else none

/-- The `getAllResponseHeaders` override (lines 292-294). -/
def xhrGetAllResponseHeaders (rule : MockRule) : String :=
  "Content-Type: " ++ contentTypeFor rule.responseType ++ "\r\n"

/-- Result of the wrapped `XMLHttpRequest.prototype.open`
(lines 213-225): record method and URL on the instance, then delegate to
the original open unconditionally. -/
structure XHROpenResult where
  mockUrl : String
  mockMethod : String
  calledOriginalOpen : Bool

/-- The wrapped `open`: capture `_mockUrl`/`_mockMethod`, delegate. -/
def xhrOpen (method url : String) : XHROpenResult :=
  { mockUrl := url, mockMethod := method, calledOriginalOpen := true }

/-- Observable effects of one call to the wrapped
`XMLHttpRequest.prototype.send`. `originalSendBody = some b` records that
the original send was invoked with body `b`; `scheduled` holds the
`setTimeout(callback, rule.delay)` registrations. -/
structure XHRSendResult (V : Type) where
  requestLogs : List RequestLog
  intercepted : Bool
  calledOriginalSend : Bool
  originalSendBody : Option (Option String)
  scheduled : List (Int × List (XHRAction V))

/-- The wrapped `send` (lines 227-317). `mockUrl`/`mockMethod` are the
values captured by `open` (`none` when `open` never ran); the JS guard
`if (url && method)` also treats empty strings as falsy. On a match it
logs, marks the instance intercepted, schedules the continuation after
`rule.delay`, and returns without calling the original send; otherwise it
logs (when url and method were captured) and delegates to the original
send with the original body. -/
def xhrSend (J : JsonOps) (R : RegexEngine) (config : ScriptConfig)
    (amb : Ambient) (mockUrl mockMethod : Option String)
    (body : Option String) (requestLogs : List RequestLog) :
    XHRSendResult J.Val :=
  let passthrough : XHRSendResult J.Val :=
    { requestLogs := requestLogs, intercepted := false,
      calledOriginalSend := true, originalSendBody := some body,
      scheduled := [] }
  match mockUrl, mockMethod with
  | some url, some method =>
    if url.isEmpty || method.isEmpty then passthrough
    else
      match matchRule R config url method with
      | some rule =>
        { requestLogs :=
            addRequestLog config amb url method true (some rule.id)
              requestLogs,
          intercepted := true, calledOriginalSend := false,
          originalSendBody := none,
          scheduled := [(rule.delay, xhrContinuation J rule)] }
      | none =>
        { passthrough with
            requestLogs :=
              addRequestLog config amb url method false none requestLogs }
  | _, _ => passthrough

/-- Arguments of one `addRequestLog` call, for reasoning about call
sequences. -/
structure RecordCall where
  amb : Ambient
  url : String
  method : String
  matched : Bool
  ruleId : Option String

/-- Replay a sequence of `addRequestLog` calls against the shared log. -/
def recordSeq (config : ScriptConfig) (calls : List RecordCall)
    (requestLogs : List RequestLog) : List RequestLog :=
  calls.foldl
    (fun logs c =>
      addRequestLog config c.amb c.url c.method c.matched c.ruleId logs)
    requestLogs

/-- The log entry a `RecordCall` gives rise to. -/
def entryOf (c : RecordCall) : RequestLog :=
  { id := c.amb.freshId, timestamp := c.amb.nowMs, url := c.url,
    method := c.method, matched := c.matched, ruleId := c.ruleId }

/-- Specification-side method compatibility (§4.1): the rule's method is
`ALL` or equals the uppercased request method. -/
def methodCompatible (rule : MockRule) (method : String) : Bool :=
  rule.method == "ALL" || rule.method == jsToUpper method

/-- Specification-side URL compatibility (§4.1): regular-expression test
when the pattern compiles, substring containment otherwise. -/
def urlCompatible (R : RegexEngine) (rule : MockRule) (url : String) :
    Bool :=
  if R.compiles rule.urlPattern then R.test rule.urlPattern url
  else strIncludes url rule.urlPattern

/-- Specification-side rule predicate: enabled, method-compatible and
URL-compatible. -/
def matchPred (R : RegexEngine) (url method : String) (r : MockRule) :
    Bool :=
  r.enabled && methodCompatible r method && urlCompatible R r url

/-- The matcher as §8 of the specification states it: none when disabled,
otherwise the first stored rule that is enabled, method-compatible and
URL-compatible. Stated with `List.find?` for comparison with the
source-translated `matchRule`. -/
def matchSpec (R : RegexEngine) (config : ScriptConfig)
    (url method : String) : Option MockRule :=
  if config.enabled then config.rules.find? (matchPred R url method)
  else none

/-- The events dispatched along a continuation trace, in order. -/
def fires {V : Type} (trace : List (XHRAction V)) : List String :=
  trace.filterMap fun a =>
    match a with
    | .fire ev => some ev
    | _ => none

/-- The `readyState` values installed along a continuation trace, in
order. -/
def readyStateSets {V : Type} (trace : List (XHRAction V)) : List Nat :=
  trace.filterMap fun a =>
    match a with
    | .setReadyState n => some n
    | _ => none

/-! Concrete fixtures used by the witness theorems. -/

/-- A regex engine on which no pattern compiles, forcing the substring
fallback everywhere. -/
def noRegex : RegexEngine :=
  { compiles := fun _ => false, test := fun _ _ => false }

/-- A concrete JSON facility: the only parseable document is `" 1 "`,
which parses to `1` and re-serializes to `"1"`. -/
def jsonNat : JsonOps :=
  { Val := Nat,
    parse := fun s => if s = " 1 " then some 1 else none,
    stringify := fun n => toString n }

/-- Fixture: enabled text rule, status 503, matching `/api` substrings. -/
def ruleText503 : MockRule :=
  { id := "r1", enabled := true, name := "text rule",
    urlPattern := "/api", method := "ALL", responseType := .text,
    responseData := "hello", statusCode := 503, delay := 0 }

/-- Fixture: enabled json rule whose `responseData` is not valid JSON. -/
def ruleJsonBad : MockRule :=
  { id := "r2", enabled := true, name := "bad json",
    urlPattern := "/api", method := "ALL", responseType := .json,
    responseData := "not json", statusCode := 200, delay := 0 }

/-- Fixture: enabled json rule whose `responseData` `" 1 "` parses but
does not round-trip character-identically. -/
def ruleJsonNorm : MockRule :=
  { id := "r3", enabled := true, name := "norm",
    urlPattern := "/api", method := "ALL", responseType := .json,
    responseData := " 1 ", statusCode := 200, delay := 5 }

/-- Fixture: enabled rule whose method is stored in lower case. -/
def ruleGetLower : MockRule :=
  { id := "r4", enabled := true, name := "lower",
    urlPattern := "/api", method := "get", responseType := .text,
    responseData := "hello", statusCode := 200, delay := 0 }

/-- Fixture: enabled rule whose method is stored in upper case. -/
def ruleGetUpper : MockRule :=
  { id := "r5", enabled := true, name := "upper",
    urlPattern := "/api", method := "GET", responseType := .text,
    responseData := "hello", statusCode := 200, delay := 0 }

/-- Fixture config holding only `ruleText503`. -/
def cfgText : ScriptConfig :=
  { enabled := true, rules := [ruleText503],
    showNotification := true, logRequests := true }

/-- Fixture config holding only the malformed-JSON rule. -/
def cfgJsonBad : ScriptConfig :=
  { enabled := true, rules := [ruleJsonBad],
    showNotification := true, logRequests := true }

/-- Fixture config with no rules at all. -/
def cfgEmpty : ScriptConfig :=
  { enabled := true, rules := [],
    showNotification := true, logRequests := true }

/-- Fixture config that is globally disabled. -/
def cfgDisabled : ScriptConfig :=
  { enabled := false, rules := [ruleText503],
    showNotification := true, logRequests := true }

/-- Fixture ambient values. -/
def amb0 : Ambient := { freshId := "id0", nowMs := 0 }

/-- Fixture: enabled text rule with the unconventional status 999. -/
def ruleStatus999 : MockRule :=
  { id := "r6", enabled := true, name := "status999",
    urlPattern := "/api", method := "ALL", responseType := .text,
    responseData := "hello", statusCode := 999, delay := 0 }

/-- Fixture: the response synthesized from `ruleText503`. -/
def resp503 : MockResponse :=
  { body := "hello", status := 503, statusText := "OK",
    headers := [("Content-Type", "text/plain")] }

/-- Fixture: the response synthesized from `ruleStatus999`. -/
def resp999 : MockResponse :=
  { body := "hello", status := 999, statusText := "OK",
    headers := [("Content-Type", "text/plain")] }

/-- Fixture: 150 distinct record calls. -/
def calls150 : List RecordCall :=
  (List.range 150).map fun i =>
    { amb := { freshId := toString i, nowMs := i }, url := "/u",
      method := "GET", matched := false, ruleId := none }

/-! ## Helper lemmas -/

theorem urlCompatible_def (R : RegexEngine) (r : MockRule)
    (url : String) :
    (if R.compiles r.urlPattern then R.test r.urlPattern url
     else strIncludes url r.urlPattern) = urlCompatible R r url := rfl

theorem methodCompatible_eq_not_skip (rule : MockRule) (method : String) :
    methodCompatible rule method = !methodSkip rule method := by
  unfold methodCompatible methodSkip
  by_cases h1 : rule.method = "ALL" <;>
    by_cases h2 : rule.method = jsToUpper method <;> simp [h1, h2]

theorem matchRuleList_eq_find? (R : RegexEngine) (url method : String)
    (rules : List MockRule) :
    matchRuleList R url method rules =
      rules.find? (matchPred R url method) := by
  induction rules with
  | nil => rfl
  | cons r rest ih =>
    simp only [matchRuleList, urlCompatible_def]
    by_cases he : r.enabled = true
    · by_cases hs : methodSkip r method = true
      · have hp : matchPred R url method r = false := by
          simp [matchPred, methodCompatible_eq_not_skip, hs]
        simp [he, hs, List.find?_cons, hp, ih]
      · by_cases hu : urlCompatible R r url = true
        · have hp : matchPred R url method r = true := by
            simp [matchPred, methodCompatible_eq_not_skip, he, hs, hu]
          simp [he, hs, hu, List.find?_cons, hp]
        · have hp : matchPred R url method r = false := by
            simp [matchPred, hu]
          simp [he, hs, hu, List.find?_cons, hp, ih]
    · have hp : matchPred R url method r = false := by
        simp [matchPred, he]
      simp [he, List.find?_cons, hp, ih]

theorem addRequestLog_eq_take (config : ScriptConfig) (amb : Ambient)
    (url method : String) (matched : Bool) (ruleId : Option String)
    (logs : List RequestLog) (hlog : config.logRequests = true)
    (hlen : logs.length ≤ 100) :
    addRequestLog config amb url method matched ruleId logs =
      (entryOf ⟨amb, url, method, matched, ruleId⟩ :: logs).take 100 := by
  simp only [addRequestLog, entryOf, hlog, Bool.not_true,
    Bool.false_eq_true, if_false]
  split
  · rfl
  · next h =>
    refine (List.take_of_length_le ?_).symm
    simp only [List.length_cons] at h ⊢
    omega

theorem addRequestLog_length_le (config : ScriptConfig) (amb : Ambient)
    (url method : String) (matched : Bool) (ruleId : Option String)
    (logs : List RequestLog) (hlen : logs.length ≤ 100) :
    (addRequestLog config amb url method matched ruleId logs).length ≤
      100 := by
  cases hlg : config.logRequests with
  | false => simpa [addRequestLog, hlg] using hlen
  | true =>
    simp only [addRequestLog, hlg, Bool.not_true, Bool.false_eq_true,
      if_false]
    split
    · simp [List.length_take]
    · next h =>
      simp only [List.length_cons] at h ⊢
      omega

theorem recordSeq_cons (config : ScriptConfig) (c : RecordCall)
    (cs : List RecordCall) (logs : List RequestLog) :
    recordSeq config (c :: cs) logs =
      recordSeq config cs
        (addRequestLog config c.amb c.url c.method c.matched c.ruleId
          logs) := rfl

theorem recordSeq_length_le (config : ScriptConfig)
    (calls : List RecordCall) :
    ∀ logs : List RequestLog, logs.length ≤ 100 →
      (recordSeq config calls logs).length ≤ 100 := by
  induction calls with
  | nil => intro logs h; exact h
  | cons c cs ih =>
    intro logs h
    rw [recordSeq_cons]
    exact ih _ (addRequestLog_length_le _ _ _ _ _ _ _ h)

theorem take_append_take {α : Type} (A B : List α) (n : Nat) :
    (A ++ B.take n).take n = (A ++ B).take n := by
  rw [List.take_append_eq_append_take, List.take_append_eq_append_take,
    List.take_take, Nat.min_eq_left (Nat.sub_le n A.length)]

theorem recordSeq_eq_take (config : ScriptConfig)
    (hlog : config.logRequests = true) :
    ∀ (calls : List RecordCall) (logs : List RequestLog),
      logs.length ≤ 100 →
      recordSeq config calls logs =
        ((calls.map entryOf).reverse ++ logs).take 100 := by
  intro calls
  induction calls with
  | nil =>
    intro logs h
    simp only [recordSeq, List.foldl_nil, List.map_nil,
      List.reverse_nil, List.nil_append]
    exact (List.take_of_length_le h).symm
  | cons c cs ih =>
    intro logs h
    rw [recordSeq_cons,
      addRequestLog_eq_take config c.amb c.url c.method c.matched
        c.ruleId logs hlog h]
    rw [ih _ (by simp only [List.length_take]; omega)]
    rw [take_append_take]
    simp [List.append_assoc]

theorem fires_append {V : Type} (a b : List (XHRAction V)) :
    fires (a ++ b) = fires a ++ fires b :=
  List.filterMap_append a b _

theorem readyStateSets_append {V : Type} (a b : List (XHRAction V)) :
    readyStateSets (a ++ b) = readyStateSets a ++ readyStateSets b :=
  List.filterMap_append a b _

/-- Decomposition of the scheduled XHR continuation: a fixed prefix
(readyState walk and status/statusText/responseText installation), a
middle installing the `response` property (branch-dependent, but firing
no events and setting no readyState), and the fixed completion suffix. -/
theorem xhrContinuation_decomp (J : JsonOps) (rule : MockRule) :
    ∃ mid : List (XHRAction J.Val),
      xhrContinuation J rule =
        ([XHRAction.setReadyState 1, .fire "readystatechange",
          .setReadyState 2, .fire "readystatechange",
          .setReadyState 3, .fire "readystatechange",
          .setReadyState 4,
          .setStatus rule.statusCode,
          .setStatusText "OK",
          .setResponseText rule.responseData] ++ mid ++
         [XHRAction.installHeaderAccessors
            (contentTypeFor rule.responseType),
          .fire "readystatechange", .fire "load", .fire "loadend"]) ∧
      fires mid = [] ∧ readyStateSets mid = [] ∧
      (∀ s, XHRAction.setStatusText s ∉ mid) := by
  cases hr : rule.responseType with
  | json =>
    cases hp : J.parse rule.responseData with
    | some v =>
      refine ⟨[XHRAction.setResponse (.parsed v), .setResponseType "json"],
        ?_, rfl, rfl, ?_⟩
      · simp [xhrContinuation, hr, hp]
      · intro s
        simp [fires]
    | none =>
      refine ⟨[XHRAction.logError "Mock JSON parse failed",
        .setResponse (.raw rule.responseData)], ?_, rfl, rfl, ?_⟩
      · simp [xhrContinuation, hr, hp]
      · intro s
        simp [fires]
  | text =>
    refine ⟨[XHRAction.setResponse (.raw rule.responseData)], ?_, rfl,
      rfl, ?_⟩
    · simp [xhrContinuation, hr]
    · intro s
      simp [fires]

/-! ## Claim theorems -/

/-- Claim C2: `matchRule` returns none when the config is disabled, and
otherwise returns the first stored rule that is enabled, passes the
method test, and passes the URL test (regex when the pattern compiles,
substring containment otherwise) — i.e. it coincides with the
specification-side `matchSpec`. -/
theorem matchRule_refines_spec (R : RegexEngine) (config : ScriptConfig)
    (url method : String) :
    matchRule R config url method = matchSpec R config url method ∧
    (config.enabled = false → matchRule R config url method = none) := by
  constructor
  · unfold matchRule matchSpec
    cases he : config.enabled <;> simp [he, matchRuleList_eq_find?]
  · intro h
    simp [matchRule, h]

/-- Claim C2 witness: the refinement and the disabled case evaluated at
concrete configurations. -/
theorem matchRule_refines_spec_witness :
    matchRule noRegex cfgDisabled "/api/u" "GET" = none ∧
    matchRule noRegex cfgText "/api/u" "GET" =
      matchSpec noRegex cfgText "/api/u" "GET" := by
  have h1 := matchRule_refines_spec noRegex cfgDisabled "/api/u" "GET"
  have h2 := matchRule_refines_spec noRegex cfgText "/api/u" "GET"
  exact ⟨h1.2 rfl, h2.1⟩

/-- Claim C4: after any sequence of `addRequestLog` calls the log holds
at most 100 entries, and 150 sequential records (with logging on) leave
exactly the most recent 100 entries, newest first — the oldest 50 are
dropped. -/
theorem requestLog_bounded (config : ScriptConfig)
    (calls : List RecordCall) (logs : List RequestLog)
    (hlen : logs.length ≤ 100) :
    (recordSeq config calls logs).length ≤ 100 ∧
    (config.logRequests = true → calls.length = 150 →
      recordSeq config calls [] =
        ((calls.map entryOf).drop 50).reverse) := by
  refine ⟨recordSeq_length_le config calls logs hlen, fun hlog h150 => ?_⟩
  rw [recordSeq_eq_take config hlog calls [] (by simp)]
  rw [List.append_nil, List.take_reverse]
  congr 1
  simp [h150]

/-- Claim C4 witness: 150 concrete records leave exactly the last 100,
newest first, and the bound holds. -/
theorem requestLog_bounded_witness :
    cfgEmpty.logRequests = true ∧ calls150.length = 150 ∧
    (recordSeq cfgEmpty calls150 []).length ≤ 100 ∧
    recordSeq cfgEmpty calls150 [] =
      ((calls150.map entryOf).drop 50).reverse := by
  have h := requestLog_bounded cfgEmpty calls150 [] (by simp)
  exact ⟨rfl, by simp [calls150], h.1, h.2 rfl (by simp [calls150])⟩

/-- Claim C6 counterexample: the method test is **not** fully
case-insensitive — a rule storing its method in lower case
(`ruleGetLower.method = "get"`) fails the test against the
case-insensitively equal request method `"get"`, because the source
uppercases only the request method. -/
theorem method_test_counterexample :
    ¬ (∀ (rule : MockRule) (method : String), rule.method ≠ "ALL" →
        ((!methodSkip rule method) = true ↔
          jsToUpper rule.method = jsToUpper method)) := by
  intro h
  exact absurd ((h ruleGetLower "get" (by decide)).mpr (by decide))
    (by decide)

/-- Claim C6 amended: for a rule whose method is not `ALL`, the method
test passes exactly when the rule's stored method equals the
**uppercased** request method — case-insensitive in the request method
only; the stored method must already be upper case. -/
theorem method_test_uppercase_request (rule : MockRule) (method : String)
    (h : rule.method ≠ "ALL") :
    (!methodSkip rule method) = true ↔ rule.method = jsToUpper method := by
  simp [methodSkip, h]

/-- Claim C6 amended witness: a rule storing `"GET"` passes against the
request method `"get"`. -/
theorem method_test_uppercase_request_witness :
    ruleGetUpper.method ≠ "ALL" ∧
    ((!methodSkip ruleGetUpper "get") = true ↔
      ruleGetUpper.method = jsToUpper "get") :=
  ⟨by decide, method_test_uppercase_request ruleGetUpper "get" (by decide)⟩

/-- Claim C1 (code-bug evidence): a matched text rule with statusCode 503
still resolves the wrapped fetch with a response, but a matched json rule
whose `responseData` is not valid JSON makes the wrapped fetch **reject**
(`JSON.parse` at line 186 runs with no `try`/`catch`), instead of
completing with a degraded response as the claim requires. -/
theorem fetch_malformed_json_rejects :
    (fetchWrapper jsonNat noRegex cfgText amb0 (fun _ _ => ())
        (.str "/api/u") none []).outcome = .mocked (.ok resp503) ∧
    (fetchWrapper jsonNat noRegex cfgJsonBad amb0 (fun _ _ => ())
        (.str "/api/u") none []).outcome =
      .mocked (.error (.jsonParse "not json")) := by
  exact ⟨rfl, rfl⟩

/-- Claim C3: on the matched XHR path the original send is never called;
exactly one continuation is scheduled, after `rule.delay` (a single
suspension point); it advances readyState through 1, 2, 3 firing
`readystatechange` at each step, installs the synthesized status, status
text and response body before the terminal `readystatechange`, and ends
with `readystatechange`, `load`, `loadend` in that order. -/
theorem xhr_matched_lifecycle (J : JsonOps) (R : RegexEngine)
    (config : ScriptConfig) (amb : Ambient) (url method : String)
    (body : Option String) (logs : List RequestLog) (rule : MockRule)
    (hu : url.isEmpty = false) (hm : method.isEmpty = false)
    (hmatch : matchRule R config url method = some rule) :
    (xhrSend J R config amb (some url) (some method) body
        logs).calledOriginalSend = false ∧
    (xhrSend J R config amb (some url) (some method) body
        logs).scheduled = [(rule.delay, xhrContinuation J rule)] ∧
    fires (xhrContinuation J rule) =
      ["readystatechange", "readystatechange", "readystatechange",
       "readystatechange", "load", "loadend"] ∧
    readyStateSets (xhrContinuation J rule) = [1, 2, 3, 4] ∧
    (xhrContinuation J rule).take 6 =
      [XHRAction.setReadyState 1, .fire "readystatechange",
       .setReadyState 2, .fire "readystatechange",
       .setReadyState 3, .fire "readystatechange"] ∧
    ∃ pre, xhrContinuation J rule =
        pre ++ [XHRAction.fire "readystatechange", .fire "load",
          .fire "loadend"] ∧
      XHRAction.setStatus rule.statusCode ∈ pre ∧
      XHRAction.setStatusText "OK" ∈ pre ∧
      XHRAction.setResponseText rule.responseData ∈ pre ∧
      fires pre = ["readystatechange", "readystatechange",
        "readystatechange"] := by
  obtain ⟨mid, hdec, hfmid, hrsmid, -⟩ := xhrContinuation_decomp J rule
  refine ⟨?_, ?_, ?_, ?_, ?_, ?_⟩
  · simp [xhrSend, hu, hm, hmatch]
  · simp [xhrSend, hu, hm, hmatch]
  · rw [hdec, fires_append, fires_append, hfmid]
    simp [fires]
  · rw [hdec, readyStateSets_append, readyStateSets_append, hrsmid]
    simp [readyStateSets]
  · rw [hdec]
    rfl
  · refine ⟨[XHRAction.setReadyState 1, .fire "readystatechange",
      .setReadyState 2, .fire "readystatechange",
      .setReadyState 3, .fire "readystatechange",
      .setReadyState 4,
      .setStatus rule.statusCode,
      .setStatusText "OK",
      .setResponseText rule.responseData] ++ mid ++
      [XHRAction.installHeaderAccessors
        (contentTypeFor rule.responseType)], ?_, ?_, ?_, ?_, ?_⟩
    · rw [hdec]
      simp [List.append_assoc]
    · simp
    · simp
    · simp
    · rw [fires_append, fires_append, hfmid]
      simp [fires]

/-- Claim C3 witness: the matched lifecycle facts for a concrete matched
XHR request. -/
theorem xhr_matched_lifecycle_witness :
    (xhrSend jsonNat noRegex cfgText amb0 (some "/api/u") (some "GET")
        none []).calledOriginalSend = false ∧
    (xhrSend jsonNat noRegex cfgText amb0 (some "/api/u") (some "GET")
        none []).scheduled =
      [(ruleText503.delay, xhrContinuation jsonNat ruleText503)] := by
  have h := xhr_matched_lifecycle jsonNat noRegex cfgText amb0 "/api/u"
    "GET" none [] ruleText503 (by decide) (by decide) (by decide)
  exact ⟨h.1, h.2.1⟩

/-- Claim C5: for a request matching no rule, the fetch wrapper records a
`matched=false` log entry (through `addRequestLog`, which no-ops when
logging is off) and returns the original fetch's result on the original
arguments unmodified; the XHR send wrapper likewise records and delegates
to the original send with the original body, scheduling nothing. -/
theorem unmatched_total_passthrough (J : JsonOps) (R : RegexEngine)
    (config : ScriptConfig) (amb : Ambient) {ρ : Type}
    (originalFetch : FetchInput → Option FetchInit → ρ)
    (input : FetchInput) (init : Option FetchInit)
    (url method : String) (body : Option String)
    (logs : List RequestLog)
    (hf : matchRule R config (fetchUrl input) (fetchMethod init) = none)
    (hu : url.isEmpty = false) (hm : method.isEmpty = false)
    (hx : matchRule R config url method = none) :
    (fetchWrapper J R config amb originalFetch input init logs).outcome =
      .passthrough (originalFetch input init) ∧
    (fetchWrapper J R config amb originalFetch input init
        logs).requestLogs =
      addRequestLog config amb (fetchUrl input) (fetchMethod init) false
        none logs ∧
    (xhrSend J R config amb (some url) (some method) body
        logs).calledOriginalSend = true ∧
    (xhrSend J R config amb (some url) (some method) body
        logs).originalSendBody = some body ∧
    (xhrSend J R config amb (some url) (some method) body
        logs).intercepted = false ∧
    (xhrSend J R config amb (some url) (some method) body
        logs).scheduled = [] ∧
    (xhrSend J R config amb (some url) (some method) body
        logs).requestLogs =
      addRequestLog config amb url method false none logs := by
  refine ⟨?_, ?_, ?_, ?_, ?_, ?_, ?_⟩ <;>
    simp [fetchWrapper, xhrSend, hf, hu, hm, hx]

/-- Claim C5 witness: concrete unmatched request passed through by both
wrappers. -/
theorem unmatched_total_passthrough_witness :
    (fetchWrapper jsonNat noRegex cfgEmpty amb0 (fun i _ => fetchUrl i)
        (.str "/x") none []).outcome = .passthrough "/x" ∧
    (xhrSend jsonNat noRegex cfgEmpty amb0 (some "/x") (some "GET")
        (some "b") []).calledOriginalSend = true := by
  have h := unmatched_total_passthrough jsonNat noRegex cfgEmpty amb0
    (fun i _ => fetchUrl i) (.str "/x") none "/x" "GET" (some "b") []
    (by decide) (by decide) (by decide) (by decide)
  exact ⟨h.1, h.2.2.1⟩

/-- Claim C7: on the matched XHR path with a json rule whose body fails
to parse, the scheduled continuation still runs to completion — it
reports the failure on the diagnostic channel (`console.error`), degrades
the `response` property to the raw `responseData` string (never a parsed
value), and still fires the full completion sequence. -/
theorem xhr_json_failure_degrades (J : JsonOps) (rule : MockRule)
    (hjson : rule.responseType = .json)
    (hparse : J.parse rule.responseData = none) :
    XHRAction.logError "Mock JSON parse failed" ∈
      xhrContinuation J rule ∧
    XHRAction.setResponse (.raw rule.responseData) ∈
      xhrContinuation J rule ∧
    (∀ v : J.Val,
      XHRAction.setResponse (.parsed v) ∉ xhrContinuation J rule) ∧
    fires (xhrContinuation J rule) =
      ["readystatechange", "readystatechange", "readystatechange",
       "readystatechange", "load", "loadend"] := by
  refine ⟨?_, ?_, ?_, ?_⟩
  · simp [xhrContinuation, hjson, hparse]
  · simp [xhrContinuation, hjson, hparse]
  · intro v
    simp [xhrContinuation, hjson, hparse]
  · simp [xhrContinuation, hjson, hparse, fires]

/-- Claim C7 witness: the degraded continuation for the concrete
malformed-JSON rule. -/
theorem xhr_json_failure_degrades_witness :
    XHRAction.logError "Mock JSON parse failed" ∈
      xhrContinuation jsonNat ruleJsonBad ∧
    XHRAction.setResponse (.raw "not json") ∈
      xhrContinuation jsonNat ruleJsonBad := by
  have h := xhr_json_failure_degrades jsonNat ruleJsonBad rfl rfl
  exact ⟨h.1, h.2.1⟩

/-- Claim C8: every synthesized response carries exactly the one header
`Content-Type` (`application/json` for json rules, `text/plain` for text
rules); the XHR header accessor answers `none` for any other header name;
and the status is the rule's `statusCode` verbatim, with no validation. -/
theorem synthesized_headers_and_status (J : JsonOps) (rule : MockRule)
    (resp : MockResponse) (name : String)
    (hok : fetchMockedResponse J rule = .ok resp) :
    resp.headers =
      [("Content-Type", contentTypeFor rule.responseType)] ∧
    resp.status = rule.statusCode ∧
    contentTypeFor RespType.json = "application/json" ∧
    contentTypeFor RespType.text = "text/plain" ∧
    xhrGetResponseHeader rule name =
      (if jsToLower name = "content-type"
       then some (contentTypeFor rule.responseType) else none) ∧
    (jsToLower name ≠ "content-type" →
      xhrGetResponseHeader rule name = none) ∧
    XHRAction.setStatus rule.statusCode ∈ xhrContinuation J rule := by
  obtain ⟨mid, hdec, -, -, -⟩ := xhrContinuation_decomp J rule
  have hresp : resp.headers =
      [("Content-Type", contentTypeFor rule.responseType)] ∧
      resp.status = rule.statusCode := by
    cases hr : rule.responseType with
    | json =>
      cases hp : J.parse rule.responseData with
      | some v =>
        simp [fetchMockedResponse, hr, hp] at hok
        simp [← hok, contentTypeFor]
      | none => simp [fetchMockedResponse, hr, hp] at hok
    | text =>
      simp [fetchMockedResponse, hr] at hok
      simp [← hok, contentTypeFor]
  refine ⟨hresp.1, hresp.2, rfl, rfl, rfl, ?_, ?_⟩
  · intro hname
    simp [xhrGetResponseHeader, hname]
  · rw [hdec]
    simp

/-- Claim C8 witness: the concrete status-999 text rule — headers hold
exactly `Content-Type: text/plain`, a non-`Content-Type` lookup answers
`none`, and the unconventional status 999 is passed through verbatim. -/
theorem synthesized_headers_and_status_witness :
    resp999.headers = [("Content-Type", "text/plain")] ∧
    resp999.status = 999 ∧
    xhrGetResponseHeader ruleStatus999 "X-Custom" = none := by
  have h := synthesized_headers_and_status jsonNat ruleStatus999 resp999
    "X-Custom" rfl
  exact ⟨h.1, h.2.1, h.2.2.2.2.2.1 (by decide)⟩

/-- Claim C9: every synthesized response reports statusText `"OK"`
regardless of the rule's `statusCode`, in the fetch wrapper and in the
XHR continuation (which installs `"OK"` and nothing else as a status
text). -/
theorem statusText_always_ok (J : JsonOps) (rule : MockRule)
    (resp : MockResponse)
    (hok : fetchMockedResponse J rule = .ok resp) :
    resp.statusText = "OK" ∧
    XHRAction.setStatusText "OK" ∈ xhrContinuation J rule ∧
    (∀ s, XHRAction.setStatusText s ∈ xhrContinuation J rule →
      s = "OK") := by
  obtain ⟨mid, hdec, -, -, hnost⟩ := xhrContinuation_decomp J rule
  refine ⟨?_, ?_, ?_⟩
  · cases hr : rule.responseType with
    | json =>
      cases hp : J.parse rule.responseData with
      | some v =>
        simp [fetchMockedResponse, hr, hp] at hok
        simp [← hok]
      | none => simp [fetchMockedResponse, hr, hp] at hok
    | text =>
      simp [fetchMockedResponse, hr] at hok
      simp [← hok]
  · rw [hdec]
    simp
  · intro s hs
    rw [hdec] at hs
    simp at hs
    rcases hs with hs | hs
    · exact hs
    · exact absurd hs (hnost s)

/-- Claim C9 witness: a matched rule with statusCode 503 still yields
statusText `"OK"` (fetch response and XHR continuation). -/
theorem statusText_always_ok_witness :
    ruleText503.statusCode = 503 ∧ resp503.statusText = "OK" ∧
    XHRAction.setStatusText "OK" ∈
      xhrContinuation jsonNat ruleText503 := by
  have h := statusText_always_ok jsonNat ruleText503 resp503 rfl
  exact ⟨rfl, h.1, h.2.1⟩

/-- Claim C10: for a matched json rule whose `responseData` parses, the
fetch response body is the re-serialization `JSON.stringify(JSON.parse(
responseData))` — a normalized JSON string, not necessarily the stored
text. -/
theorem fetch_json_body_reserialized (J : JsonOps) (rule : MockRule)
    (v : J.Val) (hjson : rule.responseType = .json)
    (hparse : J.parse rule.responseData = some v) :
    fetchMockedResponse J rule =
      .ok { body := J.stringify v, status := rule.statusCode,
            statusText := "OK",
            headers := [("Content-Type", "application/json")] } := by
  simp [fetchMockedResponse, hjson, hparse, contentTypeFor]

/-- Claim C10 witness: the stored text `" 1 "` parses to `1` and the
synthesized body is the normalized `"1"`, not the stored string. -/
theorem fetch_json_body_reserialized_witness :
    ruleJsonNorm.responseType = RespType.json ∧
    jsonNat.parse ruleJsonNorm.responseData = some (1 : Nat) ∧
    fetchMockedResponse jsonNat ruleJsonNorm =
      .ok { body := "1", status := 200, statusText := "OK",
            headers := [("Content-Type", "application/json")] } ∧
    "1" ≠ ruleJsonNorm.responseData := by
  refine ⟨rfl, rfl, ?_, by decide⟩
  exact fetch_json_body_reserialized jsonNat ruleJsonNorm (1 : Nat) rfl
    rfl

end MockApi
